import Mathlib

/-!
Shallow embedding of the AIC-EEC event bus (`src/aic-eec/aic_event.c`, PC
simulator variant) and proofs of its specified properties.

The bus is single-threaded C code over file-scope statics: a per-event-kind
subscriber registry (`subscribers`, `subscriber_counts`), a circular buffer of
pending event entries (`event_buffer`, `buffer_head`, `buffer_tail`,
`buffer_count`) and an `event_initialized` flag.  C function pointers and
`void *` user-data pointers are modelled as natural numbers, with `0` playing
the role of `NULL`; the opaque payload `aic_event_data_t` is modelled as a
natural number and a `const aic_event_data_t *` argument as `Option Nat`
(`none` = `NULL`).  Callback invocations are recorded in a trace rather than
executed; a second model (`deliverR`, `processLoopR`) lets callbacks publish
re-entrantly during dispatch.
-/

/-- Modelled from the spec: the header `aic_event.h` is not among the sources;
it defines the compile-time bounds `AIC_EVENT_MAX` (number of event kinds),
`AIC_EVENT_MAX_SUBSCRIBERS` (per-kind registry capacity) and
`AIC_EVENT_QUEUE_SIZE` (queue capacity).  The spec fixes only that they are
positive compile-time constants, so the model is parameterised over them. -/
structure Cfg where
  nEvents : Nat
  nSubs : Nat
  qSize : Nat
deriving DecidableEq, Repr

/-- The C struct `subscriber_t`: a callback pointer and a user-data pointer. -/
structure Subscriber where
  callback : Nat
  user_data : Nat
deriving DecidableEq, Repr

/-- The C struct `event_entry_t`: event kind, payload and a has-payload flag. -/
structure EventEntry where
  event : Nat
  data : Nat
  has_data : Bool
deriving DecidableEq, Repr

/-- One recorded callback invocation: which callback was called, with which
event kind, payload pointer and user-data pointer. -/
structure Invocation where
  callback : Nat
  event : Nat
  data : Option Nat
  user_data : Nat
deriving DecidableEq, Repr

/-- The file-scope static state of `aic_event.c`.  The fixed-size C arrays are
modelled as total functions (reads outside the used range never happen in the
code paths below). -/
structure EvState where
  initialized : Bool
  subs : Nat → Nat → Subscriber
  subCounts : Nat → Nat
  buf : Nat → EventEntry
  head : Nat
  tail : Nat
  count : Nat

/-- The zero-initialised statics the C runtime provides before `aic_event_init`
ever runs: flag false, all arrays zero. -/
def initialEvState : EvState :=
  { initialized := false
    subs := fun _ _ => ⟨0, 0⟩
    subCounts := fun _ => 0
    buf := fun _ => ⟨0, 0, false⟩
    head := 0
    tail := 0
    count := 0 }

/-- Write one slot of the two-dimensional `subscribers` array. -/
def setSub (s : EvState) (event i : Nat) (v : Subscriber) : EvState :=
  { s with subs := fun e => if e = event then Function.update (s.subs e) i v else s.subs e }

/-- The C helper `deliver_event`: bail out on an out-of-range kind, then call
every registered subscriber of the kind in index order, skipping `NULL`
callbacks.  Invocations are recorded in a list; the registry is read, never
written. -/
def deliver_event (cfg : Cfg) (s : EvState) (event : Nat) (d : Option Nat) :
    List Invocation :=
  if cfg.nEvents ≤ event then []
  else
    (List.range (s.subCounts event)).filterMap fun i =>
      let sub := s.subs event i
      if sub.callback ≠ 0 then some ⟨sub.callback, event, d, sub.user_data⟩ else none

/-- The C helper `buffer_push`: fail when the buffer holds `qSize` entries,
otherwise store at `head`, advance `head` modulo `qSize` and bump `count`. -/
def buffer_push (cfg : Cfg) (s : EvState) (entry : EventEntry) : Bool × EvState :=
  if cfg.qSize ≤ s.count then (false, s)
  else
    (true,
      { s with
        buf := Function.update s.buf s.head entry
        head := (s.head + 1) % cfg.qSize
        count := s.count + 1 })

/-- The C helper `buffer_pop`: fail on an empty buffer, otherwise read the
entry at `tail`, advance `tail` modulo `qSize` and decrement `count`. -/
def buffer_pop (cfg : Cfg) (s : EvState) : Option EventEntry × EvState :=
  if s.count = 0 then (none, s)
  else
    (some (s.buf s.tail),
      { s with tail := (s.tail + 1) % cfg.qSize, count := s.count - 1 })

/-- The queue's abstract content: the `count` entries starting at `tail`, in
FIFO order. -/
def queueList (cfg : Cfg) (s : EvState) : List EventEntry :=
  (List.range s.count).map fun i => s.buf ((s.tail + i) % cfg.qSize)

/-- The circular-buffer representation invariant maintained by the C globals:
positive capacity, occupancy within capacity, `tail` reduced modulo the
capacity, and `head` sitting `count` slots past `tail`. -/
def bufferInv (cfg : Cfg) (s : EvState) : Prop :=
  0 < cfg.qSize ∧ s.count ≤ cfg.qSize ∧ s.tail < cfg.qSize ∧
    s.head = (s.tail + s.count) % cfg.qSize

instance (cfg : Cfg) (s : EvState) : Decidable (bufferInv cfg s) := by
  unfold bufferInv; infer_instance

/-- The C function `aic_event_init`: idempotent; on first call clears the
registry and the buffer and raises the flag. -/
def aic_event_init (s : EvState) : Bool × EvState :=
  if s.initialized then (true, s)
  else
    (true,
      { initialized := true
        subs := fun _ _ => ⟨0, 0⟩
        subCounts := fun _ => 0
        buf := fun _ => ⟨0, 0, false⟩
        head := 0
        tail := 0
        count := 0 })

/-- The C function `aic_event_deinit`: no-op when not initialized; otherwise
resets the buffer indices, clears the registry and lowers the flag.  The
`event_buffer` array itself is not cleared. -/
def aic_event_deinit (s : EvState) : EvState :=
  if s.initialized = false then s
  else
    { initialized := false
      subs := fun _ _ => ⟨0, 0⟩
      subCounts := fun _ => 0
      buf := s.buf
      head := 0
      tail := 0
      count := 0 }

/-- The C function `aic_event_is_init`. -/
def aic_event_is_init (s : EvState) : Bool :=
  s.initialized

/-- First registry index of `event` whose stored callback equals `cb` (the
search loop shared by subscribe and unsubscribe). -/
def findCb (s : EvState) (event cb : Nat) : Option Nat :=
  (List.range (s.subCounts event)).find? fun i => (s.subs event i).callback == cb

/-- The C function `aic_event_subscribe`: reject an out-of-range kind or a
`NULL` callback, then reject when uninitialized; an already-registered
callback gets its user data updated in place; otherwise append when below
`AIC_EVENT_MAX_SUBSCRIBERS`, else fail. -/
def aic_event_subscribe (cfg : Cfg) (s : EvState) (event cb ud : Nat) :
    Bool × EvState :=
  if cfg.nEvents ≤ event ∨ cb = 0 then (false, s)
  else if s.initialized = false then (false, s)
  else
    match findCb s event cb with
    | some i => (true, setSub s event i ⟨(s.subs event i).callback, ud⟩)
    | none =>
      if s.subCounts event < cfg.nSubs then
        (true,
          { setSub s event (s.subCounts event) ⟨cb, ud⟩ with
            subCounts := Function.update s.subCounts event (s.subCounts event + 1) })
      else (false, s)

/-- The C function `aic_event_unsubscribe`: reject an out-of-range kind or a
`NULL` callback, then reject when uninitialized; on a match, shift the later
entries down one slot (the C loop `subscribers[j] = subscribers[j+1]`),
decrement the count and clear the vacated slot; otherwise report false. -/
def aic_event_unsubscribe (cfg : Cfg) (s : EvState) (event cb : Nat) :
    Bool × EvState :=
  if cfg.nEvents ≤ event ∨ cb = 0 then (false, s)
  else if s.initialized = false then (false, s)
  else
    match findCb s event cb with
    | none => (false, s)
    | some i =>
      let n := s.subCounts event
      let s1 := (List.range (n - 1 - i)).foldl
        (fun st k => setSub st event (i + k) (st.subs event (i + k + 1))) s
      let s2 := { setSub s1 event (n - 1) ⟨0, 0⟩ with
                  subCounts := Function.update s1.subCounts event (n - 1) }
      (true, s2)

/-- The C function `aic_event_unsubscribe_all`: clear every slot of the kind's
registry row (all `AIC_EVENT_MAX_SUBSCRIBERS` of them) and zero its count. -/
def aic_event_unsubscribe_all (cfg : Cfg) (s : EvState) (event : Nat) : EvState :=
  if cfg.nEvents ≤ event then s
  else if s.initialized = false then s
  else
    let s1 := (List.range cfg.nSubs).foldl (fun st i => setSub st event i ⟨0, 0⟩) s
    { s1 with subCounts := Function.update s1.subCounts event 0 }

/-- The C function `aic_event_publish`: fail on an out-of-range kind; succeed
immediately when the kind has no subscribers; when uninitialized deliver
immediately; otherwise build an entry (payload copied when the pointer is
non-`NULL`, `has_data` recording that) and push it.  The result is the
returned boolean, the new state and the immediate invocations (empty on every
path except the uninitialized fall-back). -/
def aic_event_publish (cfg : Cfg) (s : EvState) (event : Nat) (d : Option Nat) :
    Bool × EvState × List Invocation :=
  if cfg.nEvents ≤ event then (false, s, [])
  else if s.subCounts event = 0 then (true, s, [])
  else if s.initialized = false then (true, s, deliver_event cfg s event d)
  else
    let entry : EventEntry := { event := event, data := d.getD 0, has_data := d.isSome }
    let r := buffer_push cfg s entry
    (r.1, r.2, [])

/-- The C function `aic_event_publish_immediate`: nothing on an out-of-range
kind, otherwise synchronous delivery; the bus state is never written. -/
def aic_event_publish_immediate (cfg : Cfg) (s : EvState) (event : Nat)
    (d : Option Nat) : List Invocation :=
  if cfg.nEvents ≤ event then []
  else deliver_event cfg s event d

/-- The C function `aic_event_subscriber_count`. -/
def aic_event_subscriber_count (cfg : Cfg) (s : EvState) (event : Nat) : Nat :=
  if cfg.nEvents ≤ event then 0
  else s.subCounts event

/-- The C function `aic_event_queue_count`. -/
def aic_event_queue_count (s : EvState) : Nat :=
  s.count

/-- The payload pointer `deliver_event` receives for a queue entry:
`entry.has_data ? &entry.data : NULL`. -/
def entryData (e : EventEntry) : Option Nat :=
  if e.has_data then some e.data else none

/-- The drain loop of `aic_event_process` (`while (buffer_pop(&entry))`), with
callbacks modelled as effect-free: pop and deliver until the pop fails.  The
fuel argument only bounds the iteration count; since delivery does not touch
the buffer here and each pop decrements `count`, fuel `s.count` makes the
recursion reach exactly the failing pop the C loop stops at. -/
def processLoop (cfg : Cfg) : Nat → EvState → EvState × List Invocation
  | 0, s => (s, [])
  | fuel + 1, s =>
    match buffer_pop cfg s with
    | (none, s1) => (s1, [])
    | (some e, s1) =>
      let tr := deliver_event cfg s1 e.event (entryData e)
      let r := processLoop cfg fuel s1
      (r.1, tr ++ r.2)

/-- The C function `aic_event_process` with effect-free callbacks: return
when uninitialized, otherwise drain the queue, dispatching each popped entry
to its kind's subscribers. -/
def aic_event_process (cfg : Cfg) (s : EvState) : EvState × List Invocation :=
  if s.initialized = false then (s, [])
  else processLoop cfg s.count s

/-! ### Re-entrant callback model

To study a subscriber callback that itself calls `aic_event_publish` during
dispatch, callbacks are given a behaviour `beh cb event d ud`: the list of
`(event, payload)` pairs the callback publishes when invoked.  This is the
only side effect on the bus a callback performs in this model. -/

/-- A callback behaviour: what a callback publishes when invoked. -/
def CbBeh : Type :=
  Nat → Nat → Option Nat → Nat → List (Nat × Option Nat)

/-- The loop body of `deliver_event` with re-entrantly publishing callbacks:
each subscriber of the kind is invoked in index order (skipping `NULL`
callbacks), and each publish the callback performs runs `aic_event_publish`
on the current state. -/
def deliverR (cfg : Cfg) (beh : CbBeh) (s : EvState) (event : Nat)
    (d : Option Nat) : EvState × List Invocation :=
  if cfg.nEvents ≤ event then (s, [])
  else
    (List.range (s.subCounts event)).foldl
      (fun acc i =>
        let sub := acc.1.subs event i
        if sub.callback ≠ 0 then
          let r := (beh sub.callback event d sub.user_data).foldl
            (fun pr p =>
              let q := aic_event_publish cfg pr.1 p.1 p.2
              (q.2.1, pr.2 ++ q.2.2))
            (acc.1, [])
          (r.1, acc.2 ++ [⟨sub.callback, event, d, sub.user_data⟩] ++ r.2)
        else acc)
      (s, [])

/-- The drain loop of `aic_event_process` with re-entrantly publishing
callbacks.  The C loop runs until `buffer_pop` fails; the fuel bounds the
iteration count, and a run whose result is unchanged by extra fuel has
reached the failing pop the C loop stops at. -/
def processLoopR (cfg : Cfg) (beh : CbBeh) :
    Nat → EvState → EvState × List Invocation
  | 0, s => (s, [])
  | fuel + 1, s =>
    match buffer_pop cfg s with
    | (none, s1) => (s1, [])
    | (some e, s1) =>
      let r1 := deliverR cfg beh s1 e.event (entryData e)
      let r2 := processLoopR cfg beh fuel r1.1
      (r2.1, r1.2 ++ r2.2)

/-- The C function `aic_event_process` under the re-entrant callback model. -/
def aic_event_processR (cfg : Cfg) (beh : CbBeh) (fuel : Nat) (s : EvState) :
    EvState × List Invocation :=
  if s.initialized = false then (s, [])
  else processLoopR cfg beh fuel s

/-! ### Operation sequences

Sequences of raw queue operations and of public API calls, used to state the
trace-level invariants. -/

/-- A raw circular-buffer operation. -/
inductive QOp where
  | push (e : EventEntry)
  | pop
deriving DecidableEq, Repr

/-- Apply one raw buffer operation, discarding the reported boolean. -/
def applyQOp (cfg : Cfg) (s : EvState) : QOp → EvState
  | .push e => (buffer_push cfg s e).2
  | .pop => (buffer_pop cfg s).2

/-- Apply a sequence of raw buffer operations. -/
def applyQOps (cfg : Cfg) (ops : List QOp) (s : EvState) : EvState :=
  ops.foldl (applyQOp cfg) s

/-- A public API call on the bus. -/
inductive BusOp where
  | opInit
  | opDeinit
  | opSubscribe (event cb ud : Nat)
  | opUnsubscribe (event cb : Nat)
  | opUnsubscribeAll (event : Nat)
  | opPublish (event : Nat) (d : Option Nat)
  | opPublishImmediate (event : Nat) (d : Option Nat)
  | opProcess
deriving DecidableEq, Repr

/-- The state effect of one public API call (returned values and recorded
invocations discarded). -/
def applyBusOp (cfg : Cfg) (s : EvState) : BusOp → EvState
  | .opInit => (aic_event_init s).2
  | .opDeinit => aic_event_deinit s
  | .opSubscribe event cb ud => (aic_event_subscribe cfg s event cb ud).2
  | .opUnsubscribe event cb => (aic_event_unsubscribe cfg s event cb).2
  | .opUnsubscribeAll event => aic_event_unsubscribe_all cfg s event
  | .opPublish event d => (aic_event_publish cfg s event d).2.1
  | .opPublishImmediate _ _ => s
  | .opProcess => (aic_event_process cfg s).1

/-- Run a sequence of public API calls from a state. -/
def applyBusOps (cfg : Cfg) (ops : List BusOp) (s : EvState) : EvState :=
  ops.foldl (applyBusOp cfg) s

/-- Push a list of entries one after the other, recording each push's reported
boolean. -/
def pushAll (cfg : Cfg) : List EventEntry → EvState → List Bool × EvState
  | [], s => ([], s)
  | e :: l, s =>
    let r := buffer_push cfg s e
    let r2 := pushAll cfg l r.2
    (r.1 :: r2.1, r2.2)

/-- Pop `n` times, collecting the successfully returned entries in order. -/
def popAll (cfg : Cfg) : Nat → EvState → List EventEntry × EvState
  | 0, s => ([], s)
  | n + 1, s =>
    match buffer_pop cfg s with
    | (none, s1) => ([], s1)
    | (some e, s1) =>
      let r := popAll cfg n s1
      (e :: r.1, r.2)

/-- The registry row of an event kind as a list, in registration order. -/
def subsList (s : EvState) (event : Nat) : List Subscriber :=
  (List.range (s.subCounts event)).map (s.subs event)

/-! ### Concrete scenarios used to exercise the model -/

/-- A small configuration with two event kinds, two subscriber slots per kind
and a queue of capacity two. -/
def cfgTwo : Cfg := ⟨2, 2, 2⟩

/-- A small configuration with two event kinds, two subscriber slots per kind
and a queue of capacity four. -/
def cfgFour : Cfg := ⟨2, 2, 4⟩

/-- A bus at capacity: initialized, callback `1` subscribed to kind `0`, and
two events of kind `0` published, filling the capacity-two queue. -/
def fullBus : EvState :=
  applyBusOps cfgTwo
    [.opInit, .opSubscribe 0 1 0, .opPublish 0 (some 1), .opPublish 0 (some 2)]
    initialEvState

/-- A callback behaviour that re-entrantly publishes one event of kind `0`
carrying payload `d1` whenever it is invoked with payload `d0`, and publishes
nothing otherwise. -/
def reentrantBeh (d0 d1 : Nat) : CbBeh :=
  fun _ _ d _ => if d = some d0 then [(0, some d1)] else []

/-- An initialized bus with callback `cb` (user data `ud`) subscribed to kind
`0` and one pending event of kind `0` with payload `d0`. -/
def reentrantStart (cb ud d0 : Nat) : EvState :=
  applyBusOps cfgFour
    [.opInit, .opSubscribe 0 cb ud, .opPublish 0 (some d0)]
    initialEvState

/-! ### Circular-buffer lemmas -/

/-- Offsets below the modulus that land on the same ring slot are equal. -/
lemma ring_offset_inj {N t a b : Nat} (ha : a < N) (hb : b < N)
    (h : (t + a) % N = (t + b) % N) : a = b := by
  have h2 : a ≡ b [MOD N] := Nat.ModEq.add_left_cancel' t h
  have := h2.eq_of_lt_of_lt ha hb
  exact this

/-- A successful push appends the entry at the tail of the abstract queue and
preserves the representation invariant; the registry and flag are untouched. -/
lemma buffer_push_ok (cfg : Cfg) (s : EvState) (e : EventEntry)
    (hinv : bufferInv cfg s) (hlt : s.count < cfg.qSize) :
    (buffer_push cfg s e).1 = true ∧
      queueList cfg (buffer_push cfg s e).2 = queueList cfg s ++ [e] ∧
      bufferInv cfg (buffer_push cfg s e).2 ∧
      (buffer_push cfg s e).2.count = s.count + 1 ∧
      (buffer_push cfg s e).2.subs = s.subs ∧
      (buffer_push cfg s e).2.subCounts = s.subCounts ∧
      (buffer_push cfg s e).2.initialized = s.initialized := by
  obtain ⟨hN, hcle, htail, hhead⟩ := hinv
  have hnotfull : ¬ cfg.qSize ≤ s.count := by omega
  have hres : buffer_push cfg s e =
      (true,
        { s with
          buf := Function.update s.buf s.head e
          head := (s.head + 1) % cfg.qSize
          count := s.count + 1 }) := by
    simp [buffer_push, hnotfull]
  rw [hres]
  refine ⟨rfl, ?_, ⟨hN, ?_, htail, ?_⟩, rfl, rfl, rfl, rfl⟩
  · show (List.range (s.count + 1)).map
        (fun i => Function.update s.buf s.head e ((s.tail + i) % cfg.qSize)) =
      queueList cfg s ++ [e]
    simp only [queueList, List.range_succ, List.map_append, List.map_cons, List.map_nil]
    congr 1
    · apply List.map_congr_left
      intro i hi
      have hiC : i < s.count := List.mem_range.mp hi
      apply Function.update_noteq
      rw [hhead]
      intro hcon
      exact absurd (ring_offset_inj (by omega) hlt hcon) (by omega)
    · rw [hhead, Function.update_same]
  · show s.count + 1 ≤ cfg.qSize
    omega
  · show (s.head + 1) % cfg.qSize = (s.tail + (s.count + 1)) % cfg.qSize
    rw [hhead, Nat.mod_add_mod, Nat.add_assoc]

/-- A push on a full buffer reports false and returns the state unchanged. -/
lemma buffer_push_full (cfg : Cfg) (s : EvState) (e : EventEntry)
    (h : cfg.qSize ≤ s.count) : buffer_push cfg s e = (false, s) := by
  simp [buffer_push, h]

/-- A successful pop returns the head of the abstract queue, leaves its tail
behind and preserves the invariant; the registry and flag are untouched. -/
lemma buffer_pop_ok (cfg : Cfg) (s : EvState)
    (hinv : bufferInv cfg s) (hpos : 0 < s.count) :
    (buffer_pop cfg s).1 = some (s.buf s.tail) ∧
      queueList cfg s = s.buf s.tail :: queueList cfg (buffer_pop cfg s).2 ∧
      bufferInv cfg (buffer_pop cfg s).2 ∧
      (buffer_pop cfg s).2.count = s.count - 1 ∧
      (buffer_pop cfg s).2.subs = s.subs ∧
      (buffer_pop cfg s).2.subCounts = s.subCounts ∧
      (buffer_pop cfg s).2.initialized = s.initialized := by
  obtain ⟨hN, hcle, htail, hhead⟩ := hinv
  have hne : ¬ s.count = 0 := by omega
  have htm : s.tail % cfg.qSize = s.tail := Nat.mod_eq_of_lt htail
  have hres : buffer_pop cfg s =
      (some (s.buf s.tail),
        { s with tail := (s.tail + 1) % cfg.qSize, count := s.count - 1 }) := by
    simp [buffer_pop, hne]
  rw [hres]
  refine ⟨rfl, ?_, ⟨hN, ?_, Nat.mod_lt _ hN, ?_⟩, rfl, rfl, rfl, rfl⟩
  · show queueList cfg s =
      s.buf s.tail ::
        (List.range (s.count - 1)).map
          (fun i => s.buf (((s.tail + 1) % cfg.qSize + i) % cfg.qSize))
    obtain ⟨m, hm⟩ : ∃ m, s.count = m + 1 := ⟨s.count - 1, by omega⟩
    simp only [queueList, hm, Nat.add_sub_cancel]
    rw [List.range_succ_eq_map]
    simp only [List.map_cons, List.map_map]
    congr 1
    · rw [Nat.add_zero, htm]
    · apply List.map_congr_left
      intro i _
      simp only [Function.comp_apply, Nat.mod_add_mod]
      congr 2
      omega
  · show s.count - 1 ≤ cfg.qSize
    omega
  · show s.head = ((s.tail + 1) % cfg.qSize + (s.count - 1)) % cfg.qSize
    rw [hhead, Nat.mod_add_mod]
    congr 1
    omega

/-- A pop on an empty buffer reports failure and returns the state
unchanged. -/
lemma buffer_pop_empty (cfg : Cfg) (s : EvState) (h : s.count = 0) :
    buffer_pop cfg s = (none, s) := by
  simp [buffer_pop, h]

/-- An empty buffer has an empty abstract queue. -/
lemma queueList_nil (cfg : Cfg) (s : EvState) (h : s.count = 0) :
    queueList cfg s = [] := by
  simp [queueList, h]

/-- The abstract queue holds exactly `count` entries. -/
lemma queueList_length (cfg : Cfg) (s : EvState) :
    (queueList cfg s).length = s.count := by
  simp [queueList]

/-- Delivery depends only on the registry, not on the buffer fields. -/
lemma deliver_event_congr (cfg : Cfg) {s t : EvState}
    (hs : t.subs = s.subs) (hc : t.subCounts = s.subCounts) :
    deliver_event cfg t = deliver_event cfg s := by
  funext event d
  simp only [deliver_event, hs, hc]

/-- The drain loop with fuel equal to the occupancy empties the queue, leaves
the registry and flag alone, and dispatches each queued entry, in FIFO order,
to the subscribers its kind has in the registry (which delivery never
changes). -/
lemma processLoop_drain (cfg : Cfg) :
    ∀ n s, bufferInv cfg s → s.count = n →
      (processLoop cfg n s).1.count = 0 ∧
      (processLoop cfg n s).1.subs = s.subs ∧
      (processLoop cfg n s).1.subCounts = s.subCounts ∧
      (processLoop cfg n s).1.initialized = s.initialized ∧
      (processLoop cfg n s).2 =
        (queueList cfg s).flatMap fun e => deliver_event cfg s e.event (entryData e) := by
  intro n
  induction n with
  | zero =>
    intro s _ hc
    refine ⟨hc, rfl, rfl, rfl, ?_⟩
    rw [queueList_nil cfg s hc]
    rfl
  | succ m ih =>
    intro s hinv hc
    obtain ⟨hp1, hplist, hpinv, hpc, hpsubs, hpcounts, hpinit⟩ :=
      buffer_pop_ok cfg s hinv (by omega)
    set s1 := (buffer_pop cfg s).2 with hs1
    have hbp : buffer_pop cfg s = (some (s.buf s.tail), s1) := Prod.ext hp1 hs1.symm
    have hcount1 : s1.count = m := by omega
    obtain ⟨ih1, ih2, ih3, ih4, ih5⟩ := ih s1 hpinv hcount1
    have hdel : deliver_event cfg s1 = deliver_event cfg s :=
      deliver_event_congr cfg hpsubs hpcounts
    simp only [processLoop, hbp]
    refine ⟨ih1, by rw [ih2, hpsubs], by rw [ih3, hpcounts], by rw [ih4, hpinit], ?_⟩
    rw [ih5, hplist, List.flatMap_cons, hdel]

/-- A raw buffer operation never pushes the occupancy past the capacity. -/
lemma applyQOp_le (cfg : Cfg) (s : EvState) (op : QOp)
    (h : s.count ≤ cfg.qSize) : (applyQOp cfg s op).count ≤ cfg.qSize := by
  cases op with
  | push e =>
    by_cases hfull : cfg.qSize ≤ s.count
    · simp [applyQOp, buffer_push, hfull, h]
    · simp only [applyQOp, buffer_push, if_neg hfull]
      show s.count + 1 ≤ cfg.qSize
      omega
  | pop =>
    by_cases hz : s.count = 0
    · simp [applyQOp, buffer_pop, hz, h]
    · simp only [applyQOp, buffer_pop, if_neg hz]
      show s.count - 1 ≤ cfg.qSize
      omega

/-- Any sequence of raw buffer operations keeps the occupancy within the
capacity. -/
lemma applyQOps_le (cfg : Cfg) :
    ∀ ops s, s.count ≤ cfg.qSize → (applyQOps cfg ops s).count ≤ cfg.qSize := by
  intro ops
  induction ops with
  | nil => intro s h; exact h
  | cons op rest ih =>
    intro s h
    exact ih (applyQOp cfg s op) (applyQOp_le cfg s op h)

/-- Pushing a list of entries that fits in the remaining capacity succeeds
entry by entry and appends the list to the abstract queue. -/
lemma pushAll_ok (cfg : Cfg) :
    ∀ l s, bufferInv cfg s → s.count + l.length ≤ cfg.qSize →
      (pushAll cfg l s).1 = List.replicate l.length true ∧
      queueList cfg (pushAll cfg l s).2 = queueList cfg s ++ l ∧
      bufferInv cfg (pushAll cfg l s).2 ∧
      (pushAll cfg l s).2.count = s.count + l.length := by
  intro l
  induction l with
  | nil =>
    intro s hinv _
    exact ⟨rfl, by simp [pushAll], hinv, rfl⟩
  | cons e rest ih =>
    intro s hinv hfit
    obtain ⟨hb, hlist, hinv1, hcount, _, _, _⟩ :=
      buffer_push_ok cfg s e hinv (by simp at hfit; omega)
    set s1 := (buffer_push cfg s e).2 with hs1
    have hps : buffer_push cfg s e = (true, s1) := Prod.ext hb hs1.symm
    have hfit1 : s1.count + rest.length ≤ cfg.qSize := by
      rw [hcount]; simp at hfit; omega
    obtain ⟨ih1, ih2, ih3, ih4⟩ := ih s1 hinv1 hfit1
    simp only [pushAll, hps]
    refine ⟨by rw [ih1]; rfl, ?_, ih3, by rw [ih4, hcount]; simp; omega⟩
    rw [ih2, hlist, List.append_assoc]
    rfl

/-- Popping `count` times returns exactly the abstract queue, in order, and
empties the buffer. -/
lemma popAll_ok (cfg : Cfg) :
    ∀ n s, bufferInv cfg s → s.count = n →
      (popAll cfg n s).1 = queueList cfg s ∧ (popAll cfg n s).2.count = 0 := by
  intro n
  induction n with
  | zero =>
    intro s _ hc
    exact ⟨(queueList_nil cfg s hc).symm, hc⟩
  | succ m ih =>
    intro s hinv hc
    obtain ⟨hp1, hplist, hpinv, hpc, _, _, _⟩ := buffer_pop_ok cfg s hinv (by omega)
    set s1 := (buffer_pop cfg s).2 with hs1
    have hbp : buffer_pop cfg s = (some (s.buf s.tail), s1) := Prod.ext hp1 hs1.symm
    obtain ⟨ih1, ih2⟩ := ih s1 hpinv (by omega)
    simp only [popAll, hbp]
    exact ⟨by rw [ih1, hplist], ih2⟩

/-! ### Lifecycle lemmas: what each API call does to the flag and, while the
bus is uninitialized, to the rest of the state -/

/-- Folding a state-transformer that never touches the flag never touches the
flag. -/
lemma foldl_initialized {α : Type} (f : EvState → α → EvState)
    (hf : ∀ st a, (f st a).initialized = st.initialized) :
    ∀ (l : List α) (st : EvState), (l.foldl f st).initialized = st.initialized := by
  intro l
  induction l with
  | nil => intro st; rfl
  | cons a rest ih => intro st; rw [List.foldl_cons, ih, hf]

/-- A push never touches the registry or the flag. -/
lemma buffer_push_state (cfg : Cfg) (s : EvState) (e : EventEntry) :
    (buffer_push cfg s e).2.subs = s.subs ∧
      (buffer_push cfg s e).2.subCounts = s.subCounts ∧
      (buffer_push cfg s e).2.initialized = s.initialized := by
  unfold buffer_push
  split <;> exact ⟨rfl, rfl, rfl⟩

/-- Subscribing never touches the flag. -/
lemma aic_event_subscribe_initialized (cfg : Cfg) (s : EvState) (event cb ud : Nat) :
    (aic_event_subscribe cfg s event cb ud).2.initialized = s.initialized := by
  unfold aic_event_subscribe
  split
  · rfl
  · split
    · rfl
    · split
      · rfl
      · split <;> rfl

/-- Unsubscribing never touches the flag. -/
lemma aic_event_unsubscribe_initialized (cfg : Cfg) (s : EvState) (event cb : Nat) :
    (aic_event_unsubscribe cfg s event cb).2.initialized = s.initialized := by
  unfold aic_event_unsubscribe
  split
  · rfl
  · split
    · rfl
    · split
      · rfl
      · show (List.foldl _ s _).initialized = s.initialized
        apply foldl_initialized
        intro st a
        rfl

/-- Clearing a kind's registry row never touches the flag. -/
lemma aic_event_unsubscribe_all_initialized (cfg : Cfg) (s : EvState) (event : Nat) :
    (aic_event_unsubscribe_all cfg s event).initialized = s.initialized := by
  unfold aic_event_unsubscribe_all
  split
  · rfl
  · split
    · rfl
    · show (List.foldl _ s _).initialized = s.initialized
      apply foldl_initialized
      intro st a
      rfl

/-- Publishing never touches the flag. -/
lemma aic_event_publish_initialized (cfg : Cfg) (s : EvState) (event : Nat)
    (d : Option Nat) :
    (aic_event_publish cfg s event d).2.1.initialized = s.initialized := by
  unfold aic_event_publish
  split
  · rfl
  · split
    · rfl
    · split
      · rfl
      · exact (buffer_push_state cfg s _).2.2

/-- The drain loop never touches the flag. -/
lemma processLoop_initialized (cfg : Cfg) :
    ∀ fuel s, (processLoop cfg fuel s).1.initialized = s.initialized := by
  intro fuel
  induction fuel with
  | zero => intro s; rfl
  | succ f ih =>
    intro s
    by_cases hz : s.count = 0
    · simp [processLoop, buffer_pop_empty cfg s hz]
    · have hbp : buffer_pop cfg s =
          (some (s.buf s.tail),
            { s with tail := (s.tail + 1) % cfg.qSize, count := s.count - 1 }) := by
        simp [buffer_pop, hz]
      simp only [processLoop, hbp]
      rw [ih]

/-- Processing never touches the flag. -/
lemma aic_event_process_initialized (cfg : Cfg) (s : EvState) :
    (aic_event_process cfg s).1.initialized = s.initialized := by
  unfold aic_event_process
  split
  · rfl
  · exact processLoop_initialized cfg s.count s

/-- On an uninitialized bus, subscribe fails and changes nothing. -/
lemma aic_event_subscribe_uninit (cfg : Cfg) (s : EvState) (event cb ud : Nat)
    (h : s.initialized = false) :
    aic_event_subscribe cfg s event cb ud = (false, s) := by
  unfold aic_event_subscribe
  split <;> simp [h]

/-- On an uninitialized bus, unsubscribe fails and changes nothing. -/
lemma aic_event_unsubscribe_uninit (cfg : Cfg) (s : EvState) (event cb : Nat)
    (h : s.initialized = false) :
    aic_event_unsubscribe cfg s event cb = (false, s) := by
  unfold aic_event_unsubscribe
  split <;> simp [h]

/-- On an uninitialized bus, clearing a kind's registry row changes nothing. -/
lemma aic_event_unsubscribe_all_uninit (cfg : Cfg) (s : EvState) (event : Nat)
    (h : s.initialized = false) :
    aic_event_unsubscribe_all cfg s event = s := by
  unfold aic_event_unsubscribe_all
  split <;> simp [h]

/-- On an uninitialized bus, publish leaves the state unchanged (every
reachable branch returns the incoming state; the enqueue branch is guarded by
the flag). -/
lemma aic_event_publish_uninit_state (cfg : Cfg) (s : EvState) (event : Nat)
    (d : Option Nat) (h : s.initialized = false) :
    (aic_event_publish cfg s event d).2.1 = s := by
  unfold aic_event_publish
  split
  · rfl
  · split <;> rfl

/-- One public API call preserves the lifecycle invariant: while the flag is
down, every per-kind subscriber count is zero and the queue is empty. -/
lemma applyBusOp_uninitInv (cfg : Cfg) (s : EvState) (op : BusOp)
    (h : s.initialized = false → (∀ e, s.subCounts e = 0) ∧ s.count = 0) :
    (applyBusOp cfg s op).initialized = false →
      (∀ e, (applyBusOp cfg s op).subCounts e = 0) ∧
        (applyBusOp cfg s op).count = 0 := by
  by_cases hi : s.initialized = false
  · cases op with
    | opInit =>
      intro habs
      simp [applyBusOp, aic_event_init, hi] at habs
    | opDeinit =>
      intro _
      show (∀ e, (aic_event_deinit s).subCounts e = 0) ∧ (aic_event_deinit s).count = 0
      rw [show aic_event_deinit s = s from by simp [aic_event_deinit, hi]]
      exact h hi
    | opSubscribe event cb ud =>
      intro _
      show (∀ e, (aic_event_subscribe cfg s event cb ud).2.subCounts e = 0) ∧
        (aic_event_subscribe cfg s event cb ud).2.count = 0
      rw [aic_event_subscribe_uninit cfg s event cb ud hi]
      exact h hi
    | opUnsubscribe event cb =>
      intro _
      show (∀ e, (aic_event_unsubscribe cfg s event cb).2.subCounts e = 0) ∧
        (aic_event_unsubscribe cfg s event cb).2.count = 0
      rw [aic_event_unsubscribe_uninit cfg s event cb hi]
      exact h hi
    | opUnsubscribeAll event =>
      intro _
      show (∀ e, (aic_event_unsubscribe_all cfg s event).subCounts e = 0) ∧
        (aic_event_unsubscribe_all cfg s event).count = 0
      rw [aic_event_unsubscribe_all_uninit cfg s event hi]
      exact h hi
    | opPublish event d =>
      intro _
      show (∀ e, (aic_event_publish cfg s event d).2.1.subCounts e = 0) ∧
        (aic_event_publish cfg s event d).2.1.count = 0
      rw [aic_event_publish_uninit_state cfg s event d hi]
      exact h hi
    | opPublishImmediate event d =>
      intro _
      exact h hi
    | opProcess =>
      intro _
      show (∀ e, (aic_event_process cfg s).1.subCounts e = 0) ∧
        (aic_event_process cfg s).1.count = 0
      rw [show (aic_event_process cfg s).1 = s from by simp [aic_event_process, hi]]
      exact h hi
  · have hi' : s.initialized = true := by
      revert hi
      cases s.initialized <;> simp
    cases op with
    | opInit =>
      intro habs
      simp [applyBusOp, aic_event_init, hi'] at habs
    | opDeinit =>
      intro _
      constructor
      · intro e
        show (aic_event_deinit s).subCounts e = 0
        simp [aic_event_deinit, hi']
      · show (aic_event_deinit s).count = 0
        simp [aic_event_deinit, hi']
    | opSubscribe event cb ud =>
      intro habs
      exfalso
      rw [show (applyBusOp cfg s (.opSubscribe event cb ud)).initialized =
            (aic_event_subscribe cfg s event cb ud).2.initialized from rfl,
          aic_event_subscribe_initialized cfg s event cb ud] at habs
      exact hi habs
    | opUnsubscribe event cb =>
      intro habs
      exfalso
      rw [show (applyBusOp cfg s (.opUnsubscribe event cb)).initialized =
            (aic_event_unsubscribe cfg s event cb).2.initialized from rfl,
          aic_event_unsubscribe_initialized cfg s event cb] at habs
      exact hi habs
    | opUnsubscribeAll event =>
      intro habs
      exfalso
      rw [show (applyBusOp cfg s (.opUnsubscribeAll event)).initialized =
            (aic_event_unsubscribe_all cfg s event).initialized from rfl,
          aic_event_unsubscribe_all_initialized cfg s event] at habs
      exact hi habs
    | opPublish event d =>
      intro habs
      exfalso
      rw [show (applyBusOp cfg s (.opPublish event d)).initialized =
            (aic_event_publish cfg s event d).2.1.initialized from rfl,
          aic_event_publish_initialized cfg s event d] at habs
      exact hi habs
    | opPublishImmediate event d =>
      intro habs
      exact absurd habs hi
    | opProcess =>
      intro habs
      exfalso
      rw [show (applyBusOp cfg s .opProcess).initialized =
            (aic_event_process cfg s).1.initialized from rfl,
          aic_event_process_initialized cfg s] at habs
      exact hi habs

/-- Any sequence of public API calls preserves the lifecycle invariant. -/
lemma applyBusOps_uninitInv (cfg : Cfg) :
    ∀ ops s,
      (s.initialized = false → (∀ e, s.subCounts e = 0) ∧ s.count = 0) →
      (applyBusOps cfg ops s).initialized = false →
        (∀ e, (applyBusOps cfg ops s).subCounts e = 0) ∧
          (applyBusOps cfg ops s).count = 0 := by
  intro ops
  induction ops with
  | nil => intro s h; exact h
  | cons op rest ih =>
    intro s h
    exact ih (applyBusOp cfg s op) (applyBusOp_uninitInv cfg s op h)

/-! ### Registry lemmas -/

/-- Writing a slot changes only the named row, at the named index. -/
lemma setSub_subs_self (s : EvState) (event i : Nat) (v : Subscriber) :
    (setSub s event i v).subs event = Function.update (s.subs event) i v := by
  simp [setSub]

/-- Writing a slot of one kind's row leaves the other rows alone. -/
lemma setSub_subs_other (s : EvState) (event i : Nat) (v : Subscriber)
    (e : Nat) (h : e ≠ event) : (setSub s event i v).subs e = s.subs e := by
  simp [setSub, h]

/-- A found index points into the kind's registered range, at a slot whose
callback is the one searched for. -/
lemma findCb_some (s : EvState) (event cb i : Nat)
    (hf : findCb s event cb = some i) :
    i < s.subCounts event ∧ (s.subs event i).callback = cb := by
  unfold findCb at hf
  have hmem := List.mem_range.mp (List.mem_of_find?_eq_some hf)
  have hp := List.find?_some hf
  exact ⟨hmem, by simpa using hp⟩

/-- A kind with no registrations has nothing to find. -/
lemma findCb_zero (s : EvState) (event cb : Nat) (h : s.subCounts event = 0) :
    findCb s event cb = none := by
  unfold findCb
  rw [h]
  rfl

/-- On an initialized bus, in range and with a non-`NULL` callback already
registered at slot `i`, subscribe overwrites that slot's user data in place
and succeeds. -/
lemma aic_event_subscribe_found (cfg : Cfg) (s : EvState) (event cb ud i : Nat)
    (he : event < cfg.nEvents) (hcb : cb ≠ 0) (hinit : s.initialized = true)
    (hf : findCb s event cb = some i) :
    aic_event_subscribe cfg s event cb ud = (true, setSub s event i ⟨cb, ud⟩) := by
  have hg : ¬ (cfg.nEvents ≤ event ∨ cb = 0) := by
    rintro (h1 | h2)
    · omega
    · exact hcb h2
  have hg2 : ¬ (s.initialized = false) := by simp [hinit]
  unfold aic_event_subscribe
  rw [if_neg hg, if_neg hg2, hf]
  show (true, setSub s event i ⟨(s.subs event i).callback, ud⟩) =
    (true, setSub s event i ⟨cb, ud⟩)
  rw [(findCb_some s event cb i hf).2]

/-- On an initialized bus, in range, with a non-`NULL` callback not yet
registered and free capacity, subscribe appends the new pair at the end of
the row and bumps the count. -/
lemma aic_event_subscribe_append (cfg : Cfg) (s : EvState) (event cb ud : Nat)
    (he : event < cfg.nEvents) (hcb : cb ≠ 0) (hinit : s.initialized = true)
    (hf : findCb s event cb = none) (hcap : s.subCounts event < cfg.nSubs) :
    aic_event_subscribe cfg s event cb ud =
      (true,
        { setSub s event (s.subCounts event) ⟨cb, ud⟩ with
          subCounts := Function.update s.subCounts event (s.subCounts event + 1) }) := by
  have hg : ¬ (cfg.nEvents ≤ event ∨ cb = 0) := by
    rintro (h1 | h2)
    · omega
    · exact hcb h2
  have hg2 : ¬ (s.initialized = false) := by simp [hinit]
  unfold aic_event_subscribe
  rw [if_neg hg, if_neg hg2, hf]
  rw [if_pos hcap]

/-- On an initialized bus, in range, with a non-`NULL` callback not yet
registered and the row full, subscribe fails and changes nothing. -/
lemma aic_event_subscribe_full (cfg : Cfg) (s : EvState) (event cb ud : Nat)
    (he : event < cfg.nEvents) (hcb : cb ≠ 0) (hinit : s.initialized = true)
    (hf : findCb s event cb = none) (hcap : cfg.nSubs ≤ s.subCounts event) :
    aic_event_subscribe cfg s event cb ud = (false, s) := by
  have hg : ¬ (cfg.nEvents ≤ event ∨ cb = 0) := by
    rintro (h1 | h2)
    · omega
    · exact hcb h2
  have hg2 : ¬ (s.initialized = false) := by simp [hinit]
  unfold aic_event_subscribe
  rw [if_neg hg, if_neg hg2, hf]
  rw [if_neg (by omega)]

/-- The net effect of the C shift loop `subscribers[j] = subscribers[j+1]`
running `m` times from index `i`: positions `i ≤ j < i + m` take the original
next entry, everything else (including every other kind's row, the counts and
the non-registry fields) is untouched. -/
lemma shiftRow (event i : Nat) :
    ∀ (m : Nat) (s : EvState),
      (∀ j, ((List.range m).foldl
            (fun st k => setSub st event (i + k) (st.subs event (i + k + 1))) s).subs
              event j =
          if i ≤ j ∧ j < i + m then s.subs event (j + 1) else s.subs event j) ∧
        (∀ e, e ≠ event → ((List.range m).foldl
            (fun st k => setSub st event (i + k) (st.subs event (i + k + 1))) s).subs e =
          s.subs e) ∧
        ((List.range m).foldl
            (fun st k => setSub st event (i + k) (st.subs event (i + k + 1))) s).subCounts =
          s.subCounts := by
  intro m
  induction m with
  | zero =>
    intro s
    rw [List.range_zero]
    refine ⟨fun j => ?_, fun e _ => rfl, rfl⟩
    rw [List.foldl_nil, if_neg (by omega)]
  | succ m ih =>
    intro s
    obtain ⟨ih1, ih2, ih3⟩ := ih s
    rw [List.range_succ, List.foldl_append]
    constructor
    · intro j
      rw [List.foldl_cons, List.foldl_nil, setSub_subs_self]
      by_cases hj : j = i + m
      · subst hj
        rw [Function.update_same, ih1, if_neg (by omega), if_pos (by omega)]
      · rw [Function.update_noteq hj, ih1]
        by_cases hle : i ≤ j ∧ j < i + m
        · rw [if_pos hle, if_pos (by omega)]
        · rw [if_neg hle, if_neg (by omega)]
    · refine ⟨fun e he => ?_, ?_⟩
      · rw [List.foldl_cons, List.foldl_nil, setSub_subs_other _ _ _ _ _ he, ih2 e he]
      · rw [List.foldl_cons, List.foldl_nil]
        exact ih3

/-- On an initialized bus, in range and with the callback registered at slot
`i`, unsubscribe succeeds, decrements the kind's count, erases index `i` from
the kind's registration list while preserving the order of the rest, and
leaves every other kind's row alone. -/
lemma aic_event_unsubscribe_found (cfg : Cfg) (s : EvState) (event cb i : Nat)
    (he : event < cfg.nEvents) (hcb : cb ≠ 0) (hinit : s.initialized = true)
    (hf : findCb s event cb = some i) :
    (aic_event_unsubscribe cfg s event cb).1 = true ∧
      (aic_event_unsubscribe cfg s event cb).2.subCounts =
        Function.update s.subCounts event (s.subCounts event - 1) ∧
      subsList (aic_event_unsubscribe cfg s event cb).2 event =
        (subsList s event).eraseIdx i ∧
      (∀ e, e ≠ event → (aic_event_unsubscribe cfg s event cb).2.subs e = s.subs e) ∧
      (aic_event_unsubscribe cfg s event cb).2.initialized = s.initialized := by
  have hg : ¬ (cfg.nEvents ≤ event ∨ cb = 0) := by
    rintro (h1 | h2)
    · omega
    · exact hcb h2
  have hg2 : ¬ (s.initialized = false) := by simp [hinit]
  obtain ⟨hi, hcbi⟩ := findCb_some s event cb i hf
  have hres : aic_event_unsubscribe cfg s event cb =
      (true,
        { setSub ((List.range (s.subCounts event - 1 - i)).foldl
              (fun st k => setSub st event (i + k) (st.subs event (i + k + 1))) s)
            event (s.subCounts event - 1) ⟨0, 0⟩ with
          subCounts := Function.update
            (((List.range (s.subCounts event - 1 - i)).foldl
              (fun st k => setSub st event (i + k) (st.subs event (i + k + 1))) s).subCounts)
            event (s.subCounts event - 1) }) := by
    unfold aic_event_unsubscribe
    rw [if_neg hg, if_neg hg2, hf]
  obtain ⟨hs1, hs2, hs3⟩ := shiftRow event i (s.subCounts event - 1 - i) s
  rw [hres]
  refine ⟨rfl, ?_, ?_, ?_, ?_⟩
  · show Function.update
        (((List.range (s.subCounts event - 1 - i)).foldl
          (fun st k => setSub st event (i + k) (st.subs event (i + k + 1))) s).subCounts)
        event (s.subCounts event - 1) =
      Function.update s.subCounts event (s.subCounts event - 1)
    rw [hs3]
  · apply List.ext_getElem
    · simp only [subsList, List.length_map, List.length_range, List.length_eraseIdx]
      rw [Function.update_same, if_pos hi]
    · intro j h1 h2
      simp only [subsList, List.getElem_map, List.getElem_range]
      have hjlen : j < s.subCounts event - 1 := by
        simp only [subsList, List.length_map, List.length_range] at h1
        rwa [Function.update_same] at h1
      rw [List.getElem_eraseIdx]
      by_cases hji : j < i
      · rw [dif_pos hji]
        simp only [List.getElem_map, List.getElem_range]
        show (setSub _ event (s.subCounts event - 1) ⟨0, 0⟩).subs event j = s.subs event j
        rw [setSub_subs_self, Function.update_noteq (by omega), hs1,
          if_neg (by omega)]
      · rw [dif_neg hji]
        simp only [List.getElem_map, List.getElem_range]
        show (setSub _ event (s.subCounts event - 1) ⟨0, 0⟩).subs event j =
          s.subs event (j + 1)
        rw [setSub_subs_self, Function.update_noteq (by omega), hs1,
          if_pos (by omega)]
  · intro e hee
    show (setSub _ event (s.subCounts event - 1) ⟨0, 0⟩).subs e = s.subs e
    rw [setSub_subs_other _ _ _ _ _ hee, hs2 e hee]
  · show ((List.range (s.subCounts event - 1 - i)).foldl
        (fun st k => setSub st event (i + k) (st.subs event (i + k + 1))) s).initialized =
      s.initialized
    apply foldl_initialized
    intro st a
    rfl

/-- On an initialized bus, in range and with a non-`NULL` callback that is not
registered, unsubscribe reports false and changes nothing. -/
lemma aic_event_unsubscribe_missing (cfg : Cfg) (s : EvState) (event cb : Nat)
    (he : event < cfg.nEvents) (hcb : cb ≠ 0) (hinit : s.initialized = true)
    (hf : findCb s event cb = none) :
    aic_event_unsubscribe cfg s event cb = (false, s) := by
  have hg : ¬ (cfg.nEvents ≤ event ∨ cb = 0) := by
    rintro (h1 | h2)
    · omega
    · exact hcb h2
  have hg2 : ¬ (s.initialized = false) := by simp [hinit]
  unfold aic_event_unsubscribe
  rw [if_neg hg, if_neg hg2, hf]

/-! ### Claim theorems -/

/-- C1: on an initialized bus whose circular buffer satisfies its
representation invariant, `aic_event_process` drains the queue to count 0 and
the recorded invocations are exactly the entries that were queued, in FIFO
order, each dispatched by `deliver_event` to the subscribers registered for
its kind — in registration order — in the registry as it stands at delivery
time (delivery itself never changes the registry in this model). -/
theorem aic_event_process_spec (cfg : Cfg) (s : EvState)
    (hinv : bufferInv cfg s) (hinit : s.initialized = true) :
    aic_event_queue_count (aic_event_process cfg s).1 = 0 ∧
      (aic_event_process cfg s).2 =
        (queueList cfg s).flatMap fun e => deliver_event cfg s e.event (entryData e) := by
  have hni : ¬ s.initialized = false := by simp [hinit]
  unfold aic_event_process
  rw [if_neg hni]
  obtain ⟨h1, _, _, _, h5⟩ := processLoop_drain cfg s.count s hinv rfl
  exact ⟨h1, h5⟩

/-- Witness for C1 at a concrete bus: one subscriber on kind 0 and one queued
entry. -/
theorem aic_event_process_spec_witness :
    bufferInv cfgFour (reentrantStart 1 7 10) ∧
      (aic_event_queue_count (aic_event_process cfgFour (reentrantStart 1 7 10)).1 = 0 ∧
        (aic_event_process cfgFour (reentrantStart 1 7 10)).2 =
          (queueList cfgFour (reentrantStart 1 7 10)).flatMap fun e =>
            deliver_event cfgFour (reentrantStart 1 7 10) e.event (entryData e)) :=
  ⟨by decide,
    aic_event_process_spec cfgFour (reentrantStart 1 7 10) (by decide) (by decide)⟩

/-- C2: the queue occupancy stays within `[0, AIC_EVENT_QUEUE_SIZE]` under any
sequence of pushes and pops (the lower bound is inherent to the natural-number
count); a push at capacity reports false and returns the state — occupancy and
stored entries — unchanged, and a pop on an empty queue reports false and
returns the state unchanged.  All three operations are total functions, so
none blocks. -/
theorem buffer_bounds_spec (cfg : Cfg) (ops : List QOp) (s : EvState)
    (e : EventEntry) (h : s.count ≤ cfg.qSize) :
    (applyQOps cfg ops s).count ≤ cfg.qSize ∧
      (cfg.qSize ≤ s.count → buffer_push cfg s e = (false, s)) ∧
      (s.count = 0 → buffer_pop cfg s = (none, s)) :=
  ⟨applyQOps_le cfg ops s h, fun hf => buffer_push_full cfg s e hf,
    fun hz => buffer_pop_empty cfg s hz⟩

/-- Witness for C2 on a capacity-two queue: three pushes and a pop never leave
the bound, the empty-pop clause fires on the start state. -/
theorem buffer_bounds_spec_witness :
    initialEvState.count ≤ cfgTwo.qSize ∧
      ((applyQOps cfgTwo
          [QOp.push ⟨0, 1, true⟩, QOp.push ⟨0, 2, true⟩, QOp.push ⟨0, 3, true⟩, QOp.pop]
          initialEvState).count ≤ cfgTwo.qSize ∧
        (cfgTwo.qSize ≤ initialEvState.count →
          buffer_push cfgTwo initialEvState ⟨1, 5, true⟩ = (false, initialEvState)) ∧
        (initialEvState.count = 0 →
          buffer_pop cfgTwo initialEvState = (none, initialEvState))) :=
  ⟨by decide,
    buffer_bounds_spec cfgTwo
      [QOp.push ⟨0, 1, true⟩, QOp.push ⟨0, 2, true⟩, QOp.push ⟨0, 3, true⟩, QOp.pop]
      initialEvState ⟨1, 5, true⟩ (by decide)⟩

/-- C3: pushing any list of entries that fits in the remaining capacity
succeeds push by push, and popping everything afterwards returns the prior
queue content followed by the pushed entries, in exactly the push order. -/
theorem fifo_spec (cfg : Cfg) (s : EvState) (l : List EventEntry)
    (hinv : bufferInv cfg s) (hfit : s.count + l.length ≤ cfg.qSize) :
    (pushAll cfg l s).1 = List.replicate l.length true ∧
      (popAll cfg (pushAll cfg l s).2.count (pushAll cfg l s).2).1 =
        queueList cfg s ++ l := by
  obtain ⟨h1, h2, h3, _⟩ := pushAll_ok cfg l s hinv hfit
  obtain ⟨p1, _⟩ := popAll_ok cfg (pushAll cfg l s).2.count (pushAll cfg l s).2 h3 rfl
  exact ⟨h1, by rw [p1, h2]⟩

/-- Witness for C3: three distinct entries pushed into an empty capacity-four
queue come back in push order. -/
theorem fifo_spec_witness :
    (bufferInv cfgFour initialEvState ∧
        initialEvState.count + 3 ≤ cfgFour.qSize) ∧
      ((pushAll cfgFour [⟨0, 1, true⟩, ⟨0, 2, true⟩, ⟨1, 3, false⟩] initialEvState).1 =
          List.replicate 3 true ∧
        (popAll cfgFour
            (pushAll cfgFour [⟨0, 1, true⟩, ⟨0, 2, true⟩, ⟨1, 3, false⟩]
              initialEvState).2.count
            (pushAll cfgFour [⟨0, 1, true⟩, ⟨0, 2, true⟩, ⟨1, 3, false⟩]
              initialEvState).2).1 =
          queueList cfgFour initialEvState ++ [⟨0, 1, true⟩, ⟨0, 2, true⟩, ⟨1, 3, false⟩]) :=
  ⟨⟨by decide, by decide⟩,
    fifo_spec cfgFour initialEvState [⟨0, 1, true⟩, ⟨0, 2, true⟩, ⟨1, 3, false⟩]
      (by decide) (by decide)⟩

/-- C8: publishing an in-range kind with zero subscribers reports success,
touches nothing, and the queue count is unchanged. -/
theorem publish_no_subscribers_spec (cfg : Cfg) (s : EvState) (event : Nat)
    (d : Option Nat) (he : event < cfg.nEvents) (hz : s.subCounts event = 0) :
    aic_event_publish cfg s event d = (true, s, []) ∧
      aic_event_queue_count (aic_event_publish cfg s event d).2.1 =
        aic_event_queue_count s := by
  have hg : ¬ cfg.nEvents ≤ event := by omega
  unfold aic_event_publish
  rw [if_neg hg, if_pos hz]
  exact ⟨rfl, rfl⟩

/-- Witness for C8: publishing kind 1 (no subscribers) on a busy bus. -/
theorem publish_no_subscribers_spec_witness :
    (1 < cfgTwo.nEvents ∧ fullBus.subCounts 1 = 0) ∧
      (aic_event_publish cfgTwo fullBus 1 (some 9) = (true, fullBus, []) ∧
        aic_event_queue_count (aic_event_publish cfgTwo fullBus 1 (some 9)).2.1 =
          aic_event_queue_count fullBus) :=
  ⟨⟨by decide, by decide⟩,
    publish_no_subscribers_spec cfgTwo fullBus 1 (some 9) (by decide) (by decide)⟩

/-- C9: every bus operation on an out-of-range event kind
(`AIC_EVENT_MAX ≤ event`) is a no-op that reports failure: subscribe,
unsubscribe and publish return false with the state untouched,
`subscriber_count` returns 0, `unsubscribe_all` returns the state unchanged
and `publish_immediate` invokes nobody.  All are total functions, so none
aborts. -/
theorem out_of_range_spec (cfg : Cfg) (s : EvState) (event cb ud : Nat)
    (d : Option Nat) (h : cfg.nEvents ≤ event) :
    aic_event_subscribe cfg s event cb ud = (false, s) ∧
      aic_event_unsubscribe cfg s event cb = (false, s) ∧
      aic_event_publish cfg s event d = (false, s, []) ∧
      aic_event_subscriber_count cfg s event = 0 ∧
      aic_event_unsubscribe_all cfg s event = s ∧
      aic_event_publish_immediate cfg s event d = [] := by
  refine ⟨?_, ?_, ?_, ?_, ?_, ?_⟩
  · unfold aic_event_subscribe
    rw [if_pos (Or.inl h)]
  · unfold aic_event_unsubscribe
    rw [if_pos (Or.inl h)]
  · unfold aic_event_publish
    rw [if_pos h]
  · unfold aic_event_subscriber_count
    rw [if_pos h]
  · unfold aic_event_unsubscribe_all
    rw [if_pos h]
  · unfold aic_event_publish_immediate
    rw [if_pos h]

/-- Witness for C9: kind 5 is out of range for a two-kind configuration. -/
theorem out_of_range_spec_witness :
    cfgTwo.nEvents ≤ 5 ∧
      (aic_event_subscribe cfgTwo fullBus 5 1 2 = (false, fullBus) ∧
        aic_event_unsubscribe cfgTwo fullBus 5 1 = (false, fullBus) ∧
        aic_event_publish cfgTwo fullBus 5 (some 3) = (false, fullBus, []) ∧
        aic_event_subscriber_count cfgTwo fullBus 5 = 0 ∧
        aic_event_unsubscribe_all cfgTwo fullBus 5 = fullBus ∧
        aic_event_publish_immediate cfgTwo fullBus 5 (some 3) = []) :=
  ⟨by decide, out_of_range_spec cfgTwo fullBus 5 1 2 (some 3) (by decide)⟩

/-- C10: starting from the zero-initialised statics, any sequence of public
API calls that leaves the bus uninitialized also leaves every per-kind
subscriber count at 0 and the queue empty; consequently publishing any
in-range kind in such a state returns true, enqueues nothing and invokes no
callback — the kind's subscriber count being 0, the uninitialized
deliver-immediately fall-back of `aic_event_publish` is never reached. -/
theorem uninitialized_inert_spec (cfg : Cfg) (ops : List BusOp)
    (h : (applyBusOps cfg ops initialEvState).initialized = false) :
    (∀ e, (applyBusOps cfg ops initialEvState).subCounts e = 0) ∧
      aic_event_queue_count (applyBusOps cfg ops initialEvState) = 0 ∧
      ∀ event d, event < cfg.nEvents →
        aic_event_publish cfg (applyBusOps cfg ops initialEvState) event d =
          (true, applyBusOps cfg ops initialEvState, []) := by
  have base : initialEvState.initialized = false →
      (∀ e, initialEvState.subCounts e = 0) ∧ initialEvState.count = 0 :=
    fun _ => ⟨fun _ => rfl, rfl⟩
  obtain ⟨hc, hq⟩ := applyBusOps_uninitInv cfg ops initialEvState base h
  refine ⟨hc, hq, ?_⟩
  intro event d he
  have hg : ¬ cfg.nEvents ≤ event := by omega
  unfold aic_event_publish
  rw [if_neg hg, if_pos (hc event)]

/-- Witness for C10: a subscribe and a publish attempted before init, then an
init/deinit cycle, leave an inert uninitialized bus. -/
theorem uninitialized_inert_spec_witness :
    (applyBusOps cfgTwo
        [BusOp.opSubscribe 0 1 5, BusOp.opPublish 0 (some 3), BusOp.opInit,
          BusOp.opDeinit] initialEvState).initialized = false ∧
      (applyBusOps cfgTwo
          [BusOp.opSubscribe 0 1 5, BusOp.opPublish 0 (some 3), BusOp.opInit,
            BusOp.opDeinit] initialEvState).subCounts 0 = 0 ∧
      aic_event_queue_count (applyBusOps cfgTwo
          [BusOp.opSubscribe 0 1 5, BusOp.opPublish 0 (some 3), BusOp.opInit,
            BusOp.opDeinit] initialEvState) = 0 ∧
      aic_event_publish cfgTwo
          (applyBusOps cfgTwo
            [BusOp.opSubscribe 0 1 5, BusOp.opPublish 0 (some 3), BusOp.opInit,
              BusOp.opDeinit] initialEvState) 0 none =
        (true,
          applyBusOps cfgTwo
            [BusOp.opSubscribe 0 1 5, BusOp.opPublish 0 (some 3), BusOp.opInit,
              BusOp.opDeinit] initialEvState, []) :=
  ⟨by decide,
    (uninitialized_inert_spec cfgTwo
        [BusOp.opSubscribe 0 1 5, BusOp.opPublish 0 (some 3), BusOp.opInit,
          BusOp.opDeinit] (by decide)).1 0,
    (uninitialized_inert_spec cfgTwo
        [BusOp.opSubscribe 0 1 5, BusOp.opPublish 0 (some 3), BusOp.opInit,
          BusOp.opDeinit] (by decide)).2.1,
    (uninitialized_inert_spec cfgTwo
        [BusOp.opSubscribe 0 1 5, BusOp.opPublish 0 (some 3), BusOp.opInit,
          BusOp.opDeinit] (by decide)).2.2 0 none (by decide)⟩

/-- C6: on an initialized bus, in range and with a non-`NULL` callback:
re-subscribing a registered callback updates that slot's user context in
place, succeeds and leaves the kind's subscriber count unchanged; a new
callback is appended when the per-kind count is below
`AIC_EVENT_MAX_SUBSCRIBERS` and rejected with the registry unchanged
otherwise; and subscribing the same callback twice with two contexts yields
exactly one registration holding the second context, with subscriber count
1. -/
theorem subscribe_spec (cfg : Cfg) (s : EvState) (event cb ud ud1 ud2 : Nat)
    (he : event < cfg.nEvents) (hcb : cb ≠ 0) (hinit : s.initialized = true) :
    (∀ i, findCb s event cb = some i →
      aic_event_subscribe cfg s event cb ud = (true, setSub s event i ⟨cb, ud⟩) ∧
        aic_event_subscriber_count cfg (aic_event_subscribe cfg s event cb ud).2 event =
          aic_event_subscriber_count cfg s event) ∧
      (findCb s event cb = none → s.subCounts event < cfg.nSubs →
        aic_event_subscribe cfg s event cb ud =
          (true,
            { setSub s event (s.subCounts event) ⟨cb, ud⟩ with
              subCounts := Function.update s.subCounts event (s.subCounts event + 1) })) ∧
      (findCb s event cb = none → cfg.nSubs ≤ s.subCounts event →
        aic_event_subscribe cfg s event cb ud = (false, s)) ∧
      (s.subCounts event = 0 → 0 < cfg.nSubs →
        aic_event_subscriber_count cfg
            (aic_event_subscribe cfg
              (aic_event_subscribe cfg s event cb ud1).2 event cb ud2).2 event = 1 ∧
          (aic_event_subscribe cfg
              (aic_event_subscribe cfg s event cb ud1).2 event cb ud2).2.subs event 0 =
            ⟨cb, ud2⟩) := by
  have hg : ¬ cfg.nEvents ≤ event := by omega
  refine ⟨?_, ?_, ?_, ?_⟩
  · intro i hf
    have hr := aic_event_subscribe_found cfg s event cb ud i he hcb hinit hf
    refine ⟨hr, ?_⟩
    rw [hr]
    unfold aic_event_subscriber_count
    rw [if_neg hg, if_neg hg]
    rfl
  · intro hf hcap
    exact aic_event_subscribe_append cfg s event cb ud he hcb hinit hf hcap
  · intro hf hcap
    exact aic_event_subscribe_full cfg s event cb ud he hcb hinit hf hcap
  · intro hz hpos
    have hf1 : findCb s event cb = none := findCb_zero s event cb hz
    have hr1 := aic_event_subscribe_append cfg s event cb ud1 he hcb hinit hf1
      (by omega)
    set t1 := (aic_event_subscribe cfg s event cb ud1).2 with ht1
    have ht1eq : t1 =
        { setSub s event (s.subCounts event) ⟨cb, ud1⟩ with
          subCounts := Function.update s.subCounts event (s.subCounts event + 1) } := by
      rw [ht1, hr1]
    have ht1count : t1.subCounts event = 1 := by
      rw [ht1eq]
      show (Function.update s.subCounts event (s.subCounts event + 1)) event = 1
      rw [Function.update_same, hz]
    have ht1sub : t1.subs event 0 = ⟨cb, ud1⟩ := by
      rw [ht1eq]
      show (setSub s event (s.subCounts event) ⟨cb, ud1⟩).subs event 0 = ⟨cb, ud1⟩
      rw [setSub_subs_self, hz, Function.update_same]
    have ht1init : t1.initialized = true := by
      rw [ht1]
      rw [aic_event_subscribe_initialized cfg s event cb ud1, hinit]
    have hf2 : findCb t1 event cb = some 0 := by
      unfold findCb
      rw [ht1count, show List.range 1 = [0] from rfl]
      apply List.find?_cons_of_pos
      rw [ht1sub]
      exact beq_self_eq_true cb
    have hr2 := aic_event_subscribe_found cfg t1 event cb ud2 0 he hcb ht1init hf2
    rw [hr2]
    constructor
    · unfold aic_event_subscriber_count
      rw [if_neg hg]
      show (setSub t1 event 0 ⟨cb, ud2⟩).subCounts event = 1
      rw [show (setSub t1 event 0 ⟨cb, ud2⟩).subCounts = t1.subCounts from rfl, ht1count]
    · show (setSub t1 event 0 ⟨cb, ud2⟩).subs event 0 = ⟨cb, ud2⟩
      rw [setSub_subs_self, Function.update_same]

/-- Witness for C6: on the concrete full bus, re-subscribing the registered
callback 1 on kind 0 updates in place and keeps the count; on kind 1 (empty
row) the double-subscribe scenario ends with one registration holding the
second context. -/
theorem subscribe_spec_witness :
    (0 < cfgTwo.nEvents ∧ (1 : Nat) ≠ 0 ∧ fullBus.initialized = true ∧
        findCb fullBus 0 1 = some 0 ∧ fullBus.subCounts 1 = 0) ∧
      (aic_event_subscribe cfgTwo fullBus 0 1 9 = (true, setSub fullBus 0 0 ⟨1, 9⟩) ∧
        aic_event_subscriber_count cfgTwo
            (aic_event_subscribe cfgTwo fullBus 0 1 9).2 0 =
          aic_event_subscriber_count cfgTwo fullBus 0) ∧
      (aic_event_subscriber_count cfgTwo
          (aic_event_subscribe cfgTwo
            (aic_event_subscribe cfgTwo fullBus 1 1 4).2 1 1 6).2 1 = 1 ∧
        (aic_event_subscribe cfgTwo
            (aic_event_subscribe cfgTwo fullBus 1 1 4).2 1 1 6).2.subs 1 0 = ⟨1, 6⟩) :=
  ⟨⟨by decide, by decide, by decide, by decide, by decide⟩,
    (subscribe_spec cfgTwo fullBus 0 1 9 4 6 (by decide) (by decide) (by decide)).1 0
      (by decide),
    (subscribe_spec cfgTwo fullBus 1 1 9 4 6 (by decide) (by decide)
        (by decide)).2.2.2 (by decide) (by decide)⟩

/-- C7: on an initialized bus, in range and with a non-`NULL` callback:
unsubscribing a registered callback succeeds, decrements the kind's
subscriber count, removes exactly that registration while preserving the
relative order of the remaining ones, and leaves every other kind's row
alone; unsubscribing an unregistered callback reports false with the state
unchanged. -/
theorem unsubscribe_spec (cfg : Cfg) (s : EvState) (event cb : Nat)
    (he : event < cfg.nEvents) (hcb : cb ≠ 0) (hinit : s.initialized = true) :
    (∀ i, findCb s event cb = some i →
      (aic_event_unsubscribe cfg s event cb).1 = true ∧
        aic_event_subscriber_count cfg (aic_event_unsubscribe cfg s event cb).2 event =
          aic_event_subscriber_count cfg s event - 1 ∧
        subsList (aic_event_unsubscribe cfg s event cb).2 event =
          (subsList s event).eraseIdx i ∧
        ∀ e, e ≠ event → (aic_event_unsubscribe cfg s event cb).2.subs e = s.subs e) ∧
      (findCb s event cb = none →
        aic_event_unsubscribe cfg s event cb = (false, s)) := by
  have hg : ¬ cfg.nEvents ≤ event := by omega
  constructor
  · intro i hf
    obtain ⟨h1, h2, h3, h4, _⟩ :=
      aic_event_unsubscribe_found cfg s event cb i he hcb hinit hf
    refine ⟨h1, ?_, h3, h4⟩
    unfold aic_event_subscriber_count
    rw [if_neg hg, if_neg hg, h2, Function.update_same]
  · intro hf
    exact aic_event_unsubscribe_missing cfg s event cb he hcb hinit hf

/-- Witness for C7: on the concrete full bus, unsubscribing the registered
callback 1 removes the single registration of kind 0 and leaves kind 1 alone;
unsubscribing the unregistered callback 2 fails with the state unchanged. -/
theorem unsubscribe_spec_witness :
    (0 < cfgTwo.nEvents ∧ (1 : Nat) ≠ 0 ∧ fullBus.initialized = true ∧
        findCb fullBus 0 1 = some 0 ∧ findCb fullBus 0 2 = none) ∧
      ((aic_event_unsubscribe cfgTwo fullBus 0 1).1 = true ∧
        aic_event_subscriber_count cfgTwo
            (aic_event_unsubscribe cfgTwo fullBus 0 1).2 0 =
          aic_event_subscriber_count cfgTwo fullBus 0 - 1 ∧
        subsList (aic_event_unsubscribe cfgTwo fullBus 0 1).2 0 =
          (subsList fullBus 0).eraseIdx 0 ∧
        (aic_event_unsubscribe cfgTwo fullBus 0 1).2.subs 1 = fullBus.subs 1) ∧
      aic_event_unsubscribe cfgTwo fullBus 0 2 = (false, fullBus) :=
  ⟨⟨by decide, by decide, by decide, by decide, by decide⟩,
    (fun h => ⟨h.1, h.2.1, h.2.2.1, h.2.2.2 1 (by decide)⟩)
      ((unsubscribe_spec cfgTwo fullBus 0 1 (by decide) (by decide) (by decide)).1 0
        (by decide)),
    (unsubscribe_spec cfgTwo fullBus 0 2 (by decide) (by decide) (by decide)).2
      (by decide)⟩

/-- C4 counter-example: on the concrete initialized bus `fullBus` — kind 0
has one subscriber and the capacity-two queue is full — a further publish of
kind 0 returns false and the resulting state is identically `fullBus`.
Nothing in the event-bus state changes, and the state embeds every file-scope
static of `aic_event.c`: the module keeps no dropped-event counter (the only
`dropped_count` in the repository belongs to the separate logging module
`aic_log.c`), so no dropped-event counter increments as the claim states. -/
theorem publish_full_drop_counterexample :
    fullBus.initialized = true ∧ 0 < fullBus.subCounts 0 ∧
      cfgTwo.qSize ≤ fullBus.count ∧
      aic_event_publish cfgTwo fullBus 0 (some 3) = (false, fullBus, []) :=
  ⟨rfl, by decide, by decide, rfl⟩

/-- C4 amended: publishing an in-range kind with at least one subscriber on
an initialized bus whose queue is at capacity reports failure, and leaves the
entire bus state unchanged — the event is silently dropped.  The event bus
maintains no dropped-event counter, so the number of drops is observable only
as the number of publish calls that returned false. -/
theorem publish_full_drop_spec (cfg : Cfg) (s : EvState) (event : Nat)
    (d : Option Nat) (he : event < cfg.nEvents) (hinit : s.initialized = true)
    (hsubs : 0 < s.subCounts event) (hfull : cfg.qSize ≤ s.count) :
    aic_event_publish cfg s event d = (false, s, []) := by
  have hg : ¬ cfg.nEvents ≤ event := by omega
  have hz : ¬ s.subCounts event = 0 := by omega
  have hni : ¬ s.initialized = false := by simp [hinit]
  unfold aic_event_publish
  rw [if_neg hg, if_neg hz, if_neg hni]
  show ((buffer_push cfg s ⟨event, d.getD 0, d.isSome⟩).1,
      (buffer_push cfg s ⟨event, d.getD 0, d.isSome⟩).2, []) = (false, s, [])
  rw [buffer_push_full cfg s ⟨event, d.getD 0, d.isSome⟩ hfull]

/-- Witness for the amended C4 at the concrete full bus. -/
theorem publish_full_drop_spec_witness :
    (0 < cfgTwo.nEvents ∧ fullBus.initialized = true ∧ 0 < fullBus.subCounts 0 ∧
        cfgTwo.qSize ≤ fullBus.count) ∧
      aic_event_publish cfgTwo fullBus 0 (some 7) = (false, fullBus, []) :=
  ⟨⟨by decide, by decide, by decide, by decide⟩,
    publish_full_drop_spec cfgTwo fullBus 0 (some 7) (by decide) (by decide)
      (by decide) (by decide)⟩

/-- The drain loop returns immediately once the buffer is empty, whatever
fuel remains. -/
lemma processLoopR_empty (cfg : Cfg) (beh : CbBeh) (fuel : Nat) (s : EvState)
    (h : s.count = 0) : processLoopR cfg beh fuel s = (s, []) := by
  cases fuel with
  | zero => rfl
  | succ f => simp [processLoopR, buffer_pop_empty cfg s h]

/-- C5 counter-example: callback 1 is subscribed to kind 0, one entry with
payload 10 is queued, and the callback re-entrantly publishes payload 20 when
invoked with 10.  One `aic_event_process` call (re-entrant model, fuel 3)
delivers BOTH events — the re-entrantly published entry is appended at the
tail but popped and dispatched in the same drain, because the C loop
`while (buffer_pop(&entry))` keeps going while the queue refills; it is not
deferred to a later drain pass as the claim states.  The result is unchanged
at fuel 4, so the loop has already reached the failing pop at which the C
code stops. -/
theorem process_reentrant_counterexample :
    (aic_event_processR cfgFour (reentrantBeh 10 20) 3 (reentrantStart 1 7 10)).2 =
        [⟨1, 0, some 10, 7⟩, ⟨1, 0, some 20, 7⟩] ∧
      (aic_event_processR cfgFour (reentrantBeh 10 20) 3
          (reentrantStart 1 7 10)).1.count = 0 ∧
      aic_event_processR cfgFour (reentrantBeh 10 20) 3 (reentrantStart 1 7 10) =
        aic_event_processR cfgFour (reentrantBeh 10 20) 4 (reentrantStart 1 7 10) :=
  ⟨by decide, by decide, rfl⟩

/-- C5 amended: if the subscriber callback invoked during
`aic_event_process` re-entrantly publishes, the new entry is appended at the
tail of the queue and IS dispatched during that same `process()` call — the
drain loop pops until the queue, including entries appended mid-drain, is
empty — rather than being deferred to a later drain pass.  Stated for a bus
with one subscriber (callback `cb`, context `ud`) on kind 0 and one pending
entry with payload `d0`, whose callback publishes payload `d1` when invoked
with `d0`: any fuel ≥ 2 yields both invocations in the one call's trace and
an empty queue, so the C loop terminates here with both deliveries done. -/
theorem process_reentrant_spec (cb ud d0 d1 fuel : Nat)
    (hcb : cb ≠ 0) (hne : d1 ≠ d0) (hfuel : 2 ≤ fuel) :
    (aic_event_processR cfgFour (reentrantBeh d0 d1) fuel (reentrantStart cb ud d0)).2 =
        [⟨cb, 0, some d0, ud⟩, ⟨cb, 0, some d1, ud⟩] ∧
      (aic_event_processR cfgFour (reentrantBeh d0 d1) fuel
          (reentrantStart cb ud d0)).1.count = 0 := by
  obtain ⟨f, rfl⟩ : ∃ f, fuel = f + 1 + 1 := ⟨fuel - 2, by omega⟩
  constructor
  · simp [aic_event_processR, processLoopR, reentrantStart, applyBusOps, applyBusOp,
      aic_event_init, initialEvState, aic_event_subscribe, findCb, aic_event_publish,
      buffer_push, buffer_pop, deliverR, setSub, reentrantBeh, entryData, cfgFour,
      Function.update_apply, processLoopR_empty, hcb, hne, List.range_succ]
  · simp [aic_event_processR, processLoopR, reentrantStart, applyBusOps, applyBusOp,
      aic_event_init, initialEvState, aic_event_subscribe, findCb, aic_event_publish,
      buffer_push, buffer_pop, deliverR, setSub, reentrantBeh, entryData, cfgFour,
      Function.update_apply, processLoopR_empty, hcb, hne, List.range_succ]

/-- Witness for the amended C5 at concrete payloads and fuel. -/
theorem process_reentrant_spec_witness :
    ((5 : Nat) ≠ 0 ∧ (21 : Nat) ≠ 11 ∧ (2 : Nat) ≤ 6) ∧
      ((aic_event_processR cfgFour (reentrantBeh 11 21) 6 (reentrantStart 5 8 11)).2 =
          [⟨5, 0, some 11, 8⟩, ⟨5, 0, some 21, 8⟩] ∧
        (aic_event_processR cfgFour (reentrantBeh 11 21) 6
            (reentrantStart 5 8 11)).1.count = 0) :=
  ⟨⟨by decide, by decide, by decide⟩,
    process_reentrant_spec 5 8 11 21 6 (by decide) (by decide) (by decide)⟩
